import Mathlib

/-!
Verification development for the process lifecycle and usage-accounting
engine (src/app_manager.py, src/config.py) and its rate-limited command
dispatcher (src/bot.py).

The Python code is embedded shallowly:

* Python dicts become association lists with Python dict semantics
  (`dictGet`, `dictInsert`, `dictErase`); insertion updates an existing
  key in place and appends a new key at the end, as CPython dicts do.
* The OS is an explicit state: a list of live processes (pid, image
  name), a set of existing file paths, an environment-variable expansion
  function, and a spawn function classifying `subprocess.Popen` outcomes.
* `is_running` is modelled on its psutil branch (`HAS_PSUTIL = True`),
  the OS-inspection path taken when the psutil dependency is installed:
  `psutil.pid_exists` + `Process.is_running` collapse to `pid_alive`,
  and `psutil.process_iter` is the first case-insensitive name match
  over the process list.
* `taskkill /pid` succeeds iff a process with that pid exists and
  removes it; `taskkill /f /im name` succeeds iff a process with that
  image name exists (case-insensitively) and removes all of them.
* The sqlite `app_stats` table becomes a list of rows keyed by
  `app_name`; `SELECT ... WHERE app_name = ?` is `find?`, `UPDATE`
  rewrites the matching rows in place, `INSERT` appends.
* Python truthiness is preserved where the source relies on it:
  `if pid:` is `pid ≠ 0` behind an `Option`, `if proc_name:` is
  `pname ≠ ""`, and `if row and row[0]:` checks the session start is
  present and nonzero.
* Wall-clock instants are integers; `datetime.now().isoformat()` and
  `time.time()` taken at the same moment are carried together in a
  `Clock` value.
-/

namespace Ashley

/-- Python `dict.get`: value of the first (unique) binding of `k`. -/
def dictGet {α β : Type} [DecidableEq α] (d : List (α × β)) (k : α) : Option β :=
  (d.find? (fun kv => decide (kv.1 = k))).map Prod.snd

/-- Python `d[k] = v`: update the binding in place if present, else append. -/
def dictInsert {α β : Type} [DecidableEq α] (d : List (α × β)) (k : α) (v : β) :
    List (α × β) :=
  if d.any (fun kv => decide (kv.1 = k)) then
    d.map (fun kv => if kv.1 = k then (k, v) else kv)
  else d ++ [(k, v)]

/-- Python `d.pop(k, None)`: drop the binding of `k`. -/
def dictErase {α β : Type} [DecidableEq α] (d : List (α × β)) (k : α) : List (α × β) :=
  d.filter (fun kv => decide (kv.1 ≠ k))

/-- Python's `str.lower()` on the character sequence (`String.toLower`
does not reduce in the kernel, so the embedding spells it out). -/
def pyLower (s : String) : String := ⟨s.data.map Char.toLower⟩

/-- A live OS process: pid and image name (psutil's `proc.info['name']`). -/
structure Proc where
  pid : Nat
  name : String
deriving DecidableEq

/-- Outcome of `subprocess.Popen`: a pid on success, or one of the
exception classes `launch_app` catches. -/
inductive SpawnResult where
  | ok (pid : Nat)
  | fileNotFound
  | permissionError
  | otherError
deriving DecidableEq

/-- The ambient operating system as the engine observes it. -/
structure OsState where
  /-- Live processes, in `psutil.process_iter` enumeration order. -/
  procs : List Proc
  /-- Paths for which `os.path.exists` is true. -/
  files : List String
  /-- `os.path.expandvars`. -/
  expand : String → String
  /-- `subprocess.Popen` on a command line. -/
  spawn : List String → SpawnResult

/-- One entry of the app catalog (config.py `DEFAULT_CONFIG["apps"]` shape). -/
structure AppConfig where
  name : String
  path : String
  args : List String
  process_name : Option String
deriving DecidableEq

/-- The loaded configuration: the `apps` map in catalog order. -/
structure Config where
  apps : List (String × AppConfig)

/-- config.py `get_process_name`: `app_config.get("process_name")` if the
app is configured, else `None`. -/
def get_process_name (cfg : Config) (app : String) : Option String :=
  match dictGet cfg.apps app with
  | some c => c.process_name
  | none => none

/-- config.py `get_app_command`: `None` unless the app is configured with
a non-empty `path` that exists after variable expansion; then the
expanded path followed by the configured args. -/
def get_app_command (cfg : Config) (os : OsState) (app : String) : Option (List String) :=
  match dictGet cfg.apps app with
  | none => none
  | some c =>
    if c.path = "" then none
    else
      let path := os.expand c.path
      if os.files.contains path then some (path :: c.args) else none

/-- The PID Ledger: `AppManager.running_pids`. -/
def PidMap : Type := List (String × Nat)

/-- One row of the sqlite `app_stats` table. -/
structure StatsRow where
  app_name : String
  launches : Nat
  total_time : Int
  last_launch : Option String
  last_session_start : Option Int
deriving DecidableEq

/-- An instant of wall-clock time: `datetime.now().isoformat()` and
`time.time()` observed together. -/
structure Clock where
  iso : String
  epoch : Int
deriving DecidableEq

/-- In-memory and persisted engine state: the PID ledger plus the stats table. -/
structure EngineState where
  pids : List (String × Nat)
  stats : List StatsRow

/-- `psutil.pid_exists(pid)` together with `Process(pid).is_running()`. -/
def pid_alive (os : OsState) (pid : Nat) : Bool :=
  os.procs.any (fun p => p.pid == pid)

/-- app_manager.py lines 160-172 (psutil branch): the name fallback of
`is_running`. Enumerate processes, compare image names case-insensitively
with the configured process name; on the first match record (heal) the
discovered pid and report true. `if proc_name:` skips an empty name. -/
def find_by_name (cfg : Config) (os : OsState) (pids : List (String × Nat))
    (app : String) : Bool × List (String × Nat) :=
  match get_process_name cfg app with
  | some pname =>
    if pname ≠ "" then
      match os.procs.find? (fun p => pyLower p.name == pyLower pname) with
      | some p => (true, dictInsert pids app p.pid)
      | none => (false, pids)
    else (false, pids)
  | none => (false, pids)

/-- app_manager.py `AppManager.is_running` (psutil branch): check the
recorded pid against the OS first, purging a dead record; otherwise fall
back to the name scan. Returns the verdict and the updated ledger. -/
def is_running (cfg : Config) (os : OsState) (pids : List (String × Nat))
    (app : String) : Bool × List (String × Nat) :=
  match dictGet pids app with
  | some pid =>
    if pid ≠ 0 then
      if pid_alive os pid then (true, pids)
      else find_by_name cfg os (dictErase pids app) app
    else find_by_name cfg os pids app
  | none => find_by_name cfg os pids app

/-- app_manager.py `AppManager._record_launch`: bump `launches`, stamp
`last_launch` and `last_session_start` on the existing row, or insert a
fresh row with one launch (and `total_time` defaulting to 0). -/
def record_launch (clock : Clock) (stats : List StatsRow) (app : String) :
    List StatsRow :=
  match stats.find? (fun r => r.app_name == app) with
  | some _ =>
    stats.map (fun r =>
      if r.app_name = app then
        { r with launches := r.launches + 1,
                 last_launch := some clock.iso,
                 last_session_start := some clock.epoch }
      else r)
  | none => stats ++ [⟨app, 1, 0, some clock.iso, some clock.epoch⟩]

/-- app_manager.py `AppManager._record_session_end`: if the row exists and
`last_session_start` is present (and nonzero, Python truthiness of
`row[0]`), add `now - last_session_start` to `total_time` and clear
`last_session_start`; otherwise leave the table unchanged. -/
def record_session_end (now : Int) (stats : List StatsRow) (app : String) :
    List StatsRow :=
  match stats.find? (fun r => r.app_name == app) with
  | some r =>
    match r.last_session_start with
    | some s =>
      if s ≠ 0 then
        stats.map (fun r2 =>
          if r2.app_name = app then
            { r2 with total_time := r2.total_time + (now - s),
                      last_session_start := none }
          else r2)
      else stats
    | none => stats
  | none => stats

/-- The exit branches of app_manager.py `AppManager.launch_app`, in source
order; each corresponds to a distinct log message in the source. -/
inductive LaunchOutcome where
  | ok
  | notConfigured
  | alreadyRunning
  | noCommand
  | spawnFailedMissing
  | spawnFailedPermission
  | spawnFailedOther
deriving DecidableEq

/-- The boolean `launch_app` actually returns to its caller: `True` only
on the success branch, `False` on every other exit branch. -/
def launch_result : LaunchOutcome → Bool
  | .ok => true
  | _ => false

/-- app_manager.py `AppManager.launch_app`: refuse when unconfigured,
when already running, or when no launch command resolves; otherwise spawn,
record the new pid and the launch event. Spawn exceptions map to the
distinct `except` branches. -/
def launch_app (cfg : Config) (os : OsState) (clock : Clock) (es : EngineState)
    (app : String) : LaunchOutcome × EngineState :=
  match dictGet cfg.apps app with
  | none => (.notConfigured, es)
  | some _ =>
    let r := is_running cfg os es.pids app
    let es1 : EngineState := { es with pids := r.2 }
    if r.1 then (.alreadyRunning, es1)
    else
      match get_app_command cfg os app with
      | none => (.noCommand, es1)
      | some cmd =>
        match os.spawn cmd with
        | .ok pid =>
          (.ok, { pids := dictInsert es1.pids app pid,
                  stats := record_launch clock es1.stats app })
        | .fileNotFound => (.spawnFailedMissing, es1)
        | .permissionError => (.spawnFailedPermission, es1)
        | .otherError => (.spawnFailedOther, es1)

/-- `taskkill /pid pid /f` with `check=True`: succeeds iff a process with
that pid exists, removing it; `CalledProcessError` otherwise. -/
def kill_pid (os : OsState) (pid : Nat) : Bool × OsState :=
  if os.procs.any (fun p => p.pid == pid) then
    (true, { os with procs := os.procs.filter (fun p => decide (p.pid ≠ pid)) })
  else (false, os)

/-- `taskkill /f /im name` with `check=True`: succeeds iff some process
has that image name (Windows matches case-insensitively), removing all of
them; `CalledProcessError` otherwise. -/
def kill_name (os : OsState) (pname : String) : Bool × OsState :=
  if os.procs.any (fun p => pyLower p.name == pyLower pname) then
    (true, { os with
             procs := os.procs.filter (fun p => !(pyLower p.name == pyLower pname)) })
  else (false, os)

/-- app_manager.py lines 264-284: tier 2 of `close_app`, forced
termination by the configured process name; on success a session end is
recorded. `if proc_name:` skips an empty name. -/
def close_by_name (cfg : Config) (os : OsState) (now : Int) (es : EngineState)
    (app : String) : Bool × EngineState × OsState :=
  match get_process_name cfg app with
  | some pname =>
    if pname ≠ "" then
      if (kill_name os pname).1 then
        (true, { es with stats := record_session_end now es.stats app },
          (kill_name os pname).2)
      else (false, es, os)
    else (false, es, os)
  | none => (false, es, os)

/-- app_manager.py `AppManager.close_app`: tier 1 kills the recorded pid,
recording a session end on success and always (`finally:`) purging the
pid record; tier 2 by process name runs only when tier 1 did not succeed. -/
def close_app (cfg : Config) (os : OsState) (now : Int) (es : EngineState)
    (app : String) : Bool × EngineState × OsState :=
  match dictGet es.pids app with
  | some pid =>
    if pid ≠ 0 then
      if (kill_pid os pid).1 then
        (true,
          ⟨dictErase es.pids app, record_session_end now es.stats app⟩,
          (kill_pid os pid).2)
      else
        close_by_name cfg (kill_pid os pid).2 now
          ⟨dictErase es.pids app, es.stats⟩ app
    else close_by_name cfg os now es app
  | none => close_by_name cfg os now es app

/-- The loop body of app_manager.py `AppManager.close_all_apps`, one app
at a time in catalog order: `isRunning`, then `close`, collecting the
identifiers that were running and were successfully closed. -/
def close_all_go (cfg : Config) (now : Int) :
    List String → OsState → EngineState → List String × EngineState × OsState
  | [], os, es => ([], es, os)
  | a :: rest, os, es =>
    let r := is_running cfg os es.pids a
    let es1 : EngineState := { es with pids := r.2 }
    if r.1 then
      let c := close_app cfg os now es1 a
      let tail := close_all_go cfg now rest c.2.2 c.2.1
      if c.1 then (a :: tail.1, tail.2.1, tail.2.2)
      else (tail.1, tail.2.1, tail.2.2)
    else
      close_all_go cfg now rest os es1

/-- app_manager.py `AppManager.close_all_apps`: iterate the full catalog
(`self.config.get_all_apps().keys()`) in order. -/
def close_all_apps (cfg : Config) (os : OsState) (now : Int) (es : EngineState) :
    List String × EngineState × OsState :=
  close_all_go cfg now (cfg.apps.map Prod.fst) os es

/-- The required column set of the `app_stats` table
(app_manager.py line 85). -/
def required_columns : List String :=
  ["app_name", "launches", "total_time", "last_launch", "last_session_start"]

/-- An sqlite table: its column names and its rows (row contents are
irrelevant to the schema check and kept opaque as strings). -/
structure DbTable where
  columns : List String
  rows : List (List String)
deriving DecidableEq

/-- app_manager.py `AppManager._init_stats_db`: if the table is missing
any required column, drop it and recreate it empty with exactly the
required columns; a table with all required columns is left untouched;
a missing table is created. The whole body is wrapped in a broad
`try/except`, so no exception escapes. -/
def init_stats_db : Option DbTable → DbTable
  | none => ⟨required_columns, []⟩
  | some t =>
    let missing := required_columns.filter (fun c => !(t.columns.contains c))
    if missing.isEmpty then t
    else ⟨required_columns, []⟩

/-- bot.py `RATE_LIMIT_SECONDS`. -/
def RATE_LIMIT_SECONDS : Int := 2

/-- bot.py `rate_limit` wrapper: for a non-admin caller with a recorded
last command less than `seconds` ago, reject and return with the map
untouched (the wrapped handler — and hence the engine — is not invoked);
otherwise record `now` as the caller's last command time and invoke the
handler. The admin bypasses the check entirely. Returns whether the
wrapped handler ran, and the updated `last_command_time` map. -/
def rate_limit_check (admin_id : Nat) (seconds : Int) (now : Int) (user_id : Nat)
    (lct : List (Nat × Int)) : Bool × List (Nat × Int) :=
  if user_id ≠ admin_id then
    match dictGet lct user_id with
    | some t =>
      if now - t < seconds then (false, lct)
      else (true, dictInsert lct user_id now)
    | none => (true, dictInsert lct user_id now)
  else (true, dictInsert lct user_id now)

/-! ### Dictionary lemmas -/

theorem find?_append_of_none {α : Type} {p : α → Bool} {l₁ l₂ : List α}
    (h : l₁.find? p = none) : (l₁ ++ l₂).find? p = l₂.find? p := by
  induction l₁ with
  | nil => rfl
  | cons a rest ih =>
    simp only [List.find?] at h
    cases hp : p a with
    | true => rw [hp] at h; cases h
    | false =>
      rw [hp] at h
      simp only [List.cons_append, List.find?, hp]
      exact ih h

theorem find?_insert_map {α β : Type} [DecidableEq α] (d : List (α × β))
    (k : α) (v : β) (h : d.any (fun kv => decide (kv.1 = k)) = true) :
    (d.map (fun kv => if kv.1 = k then (k, v) else kv)).find?
        (fun kv => decide (kv.1 = k)) = some (k, v) := by
  induction d with
  | nil => simp at h
  | cons kv rest ih =>
    by_cases hk : kv.1 = k
    · simp [hk, List.find?]
    · have h' : rest.any (fun kv => decide (kv.1 = k)) = true := by
        simpa [hk] using h
      simp [hk, List.find?, ih h']

theorem dictGet_insert_self {α β : Type} [DecidableEq α] (d : List (α × β))
    (k : α) (v : β) : dictGet (dictInsert d k v) k = some v := by
  unfold dictGet dictInsert
  split
  · rename_i ha
    rw [find?_insert_map d k v ha]
    rfl
  · rename_i ha
    have hnone : d.find? (fun kv => decide (kv.1 = k)) = none := by
      rw [List.find?_eq_none]
      intro kv hmem
      simp only [decide_eq_true_eq]
      intro hkv
      exact ha (List.any_eq_true.mpr ⟨kv, hmem, by simp [hkv]⟩)
    rw [find?_append_of_none hnone]
    simp [List.find?]

theorem dictGet_erase_self {α β : Type} [DecidableEq α] (d : List (α × β))
    (k : α) : dictGet (dictErase d k) k = none := by
  unfold dictGet dictErase
  have hnone : (d.filter (fun kv => decide (kv.1 ≠ k))).find?
      (fun kv => decide (kv.1 = k)) = none := by
    rw [List.find?_eq_none]
    intro kv hmem
    have h2 := (List.mem_filter.mp hmem).2
    simp at h2 ⊢
    exact h2
  rw [hnone]
  rfl

theorem pid_alive_of_mem {os : OsState} {p : Proc} (h : p ∈ os.procs) :
    pid_alive os p.pid = true := by
  simp only [pid_alive, List.any_eq_true]
  exact ⟨p, h, by simp⟩

/-! ### C1 -/

/-- C1: `is_running` follows the two-step short-circuiting algorithm.
If a pid record exists and the pid is alive, it returns true leaving the
ledger untouched; if the recorded pid is dead, the record is purged and
the name fallback runs over the purged ledger; with no record the name
fallback runs directly. The name fallback, on a case-insensitive exact
match of the configured process name, heals the ledger with the
discovered pid and returns true. In every case the ledger entry for the
app ends up absent or pointing at a live pid — never at a dead pid.
(Hypothesis: the incoming record is a genuine PidRecord, i.e. not 0.) -/
theorem C1_is_running_spec (cfg : Config) (os : OsState)
    (pids : List (String × Nat)) (app : String)
    (h0 : dictGet pids app ≠ some 0) :
    (∀ pid, dictGet pids app = some pid → pid_alive os pid = true →
        is_running cfg os pids app = (true, pids)) ∧
    (∀ pid, dictGet pids app = some pid → pid_alive os pid = false →
        is_running cfg os pids app = find_by_name cfg os (dictErase pids app) app) ∧
    (dictGet pids app = none →
        is_running cfg os pids app = find_by_name cfg os pids app) ∧
    (∀ (n : String) (p : Proc) (m : List (String × Nat)),
        get_process_name cfg app = some n → n ≠ "" →
        os.procs.find? (fun q => pyLower q.name == pyLower n) = some p →
        find_by_name cfg os m app = (true, dictInsert m app p.pid)) ∧
    (∀ pid2, dictGet (is_running cfg os pids app).2 app = some pid2 →
        pid_alive os pid2 = true) := by
  have hfb : ∀ (m : List (String × Nat)),
      (find_by_name cfg os m app).2 = m ∨
      ∃ p : Proc, p ∈ os.procs ∧
        (find_by_name cfg os m app).2 = dictInsert m app p.pid := by
    intro m
    unfold find_by_name
    cases hn : get_process_name cfg app with
    | none => exact Or.inl rfl
    | some n =>
      by_cases hne : n = ""
      · simp [hne]
      · simp only [hne, ne_eq, not_false_eq_true, if_pos]
        cases hf : os.procs.find? (fun q => pyLower q.name == pyLower n) with
        | none => exact Or.inl rfl
        | some p =>
          exact Or.inr ⟨p, List.mem_of_find?_eq_some hf, rfl⟩
  have hfb_false : ∀ (m : List (String × Nat)),
      (find_by_name cfg os m app).1 = false → (find_by_name cfg os m app).2 = m := by
    intro m hfalse
    unfold find_by_name at hfalse ⊢
    cases hn : get_process_name cfg app with
    | none => rfl
    | some n =>
      by_cases hne : n = ""
      · simp [hne]
      · simp only [hn, hne, ne_eq, not_false_eq_true, if_pos] at hfalse ⊢
        cases hf : os.procs.find? (fun q => pyLower q.name == pyLower n) with
        | none => rfl
        | some p => simp [hf] at hfalse
  refine ⟨?_, ?_, ?_, ?_, ?_⟩
  · intro pid hget halive
    have hne : pid ≠ 0 := by
      intro h; rw [h] at hget; exact h0 hget
    simp [is_running, hget, hne, halive]
  · intro pid hget hdead
    have hne : pid ≠ 0 := by
      intro h; rw [h] at hget; exact h0 hget
    simp [is_running, hget, hne, hdead]
  · intro hget
    simp [is_running, hget]
  · intro n p m hn hne hf
    simp [find_by_name, hn, hne, hf]
  · intro pid2 hget2
    cases hget : dictGet pids app with
    | none =>
      simp only [is_running, hget] at hget2
      rcases hfb pids with heq | ⟨p, hmem, heq⟩
      · rw [heq, hget] at hget2; cases hget2
      · rw [heq, dictGet_insert_self] at hget2
        cases hget2
        exact pid_alive_of_mem hmem
    | some pid =>
      have hne : pid ≠ 0 := by
        intro h; rw [h] at hget; exact h0 hget
      cases halive : pid_alive os pid with
      | true =>
        simp only [is_running, hget, hne, halive, ne_eq, not_false_eq_true,
          if_true, if_pos] at hget2
        cases hget2
        exact halive
      | false =>
        simp [is_running, hget, hne, halive] at hget2
        rcases hfb (dictErase pids app) with heq | ⟨p, hmem, heq⟩
        · rw [heq, dictGet_erase_self] at hget2; cases hget2
        · rw [heq, dictGet_insert_self] at hget2
          cases hget2
          exact pid_alive_of_mem hmem

/-- Witness for C1 at a concrete state: a stale record (pid 99 dead) is
purged and healed to the live pid 7 found by name, and the healed entry
is alive. -/
theorem C1_is_running_spec_witness :
    dictGet [("dota", 99)] "dota" ≠ some 0 ∧
    is_running
      ⟨[("dota", ⟨"Dota 2", "steam.exe", [], some "dota2.exe"⟩)]⟩
      ⟨[⟨7, "Dota2.EXE"⟩], [], id, fun _ => .otherError⟩
      [("dota", 99)] "dota"
      = find_by_name
          ⟨[("dota", ⟨"Dota 2", "steam.exe", [], some "dota2.exe"⟩)]⟩
          ⟨[⟨7, "Dota2.EXE"⟩], [], id, fun _ => .otherError⟩
          (dictErase [("dota", 99)] "dota") "dota" := by
  constructor
  · decide
  · exact (C1_is_running_spec _ _ _ _ (by decide)).2.1 99 (by decide) (by decide)

/-! ### close_app lemmas -/

theorem close_by_name_pids (cfg : Config) (os : OsState) (now : Int)
    (es : EngineState) (app : String) :
    (close_by_name cfg os now es app).2.1.pids = es.pids := by
  unfold close_by_name
  split
  · split
    · split <;> rfl
    · rfl
  · rfl

theorem close_by_name_stats_of_true (cfg : Config) (os : OsState) (now : Int)
    (es : EngineState) (app : String)
    (h : (close_by_name cfg os now es app).1 = true) :
    (close_by_name cfg os now es app).2.1.stats =
      record_session_end now es.stats app := by
  unfold close_by_name at h ⊢
  cases hmatch : get_process_name cfg app with
  | none => simp only [hmatch] at h; cases h
  | some pname =>
    simp only [hmatch] at h ⊢
    by_cases hif : pname = ""
    · simp [hif] at h
    · simp only [ne_eq, hif, not_false_eq_true, if_true] at h ⊢
      cases hkill : (kill_name os pname).1 with
      | true => simp [hkill]
      | false => simp [hkill] at h

theorem kill_pid_false_os {os : OsState} {pid : Nat}
    (h : (kill_pid os pid).1 = false) : (kill_pid os pid).2 = os := by
  cases hc : os.procs.any (fun p => p.pid == pid) with
  | true => simp only [kill_pid, hc, if_true] at h; cases h
  | false => simp only [kill_pid, hc, Bool.false_eq_true, if_false]

/-! ### C10 -/

/-- C10: `close_app` removes the app's pid record even when both
termination tiers fail: the tier-1 `finally:` block purges the ledger
entry regardless of the kill succeeding, and tier 2 never re-adds it, so
a failed close never leaves the old pid entry in the ledger. -/
theorem C10_close_purges_pid_record (cfg : Config) (os : OsState) (now : Int)
    (es : EngineState) (app : String) (pid : Nat)
    (hget : dictGet es.pids app = some pid) (hpid : pid ≠ 0) :
    dictGet (close_app cfg os now es app).2.1.pids app = none := by
  cases hk : (kill_pid os pid).1 with
  | true =>
    simp only [close_app, hget, hpid, ne_eq, not_false_eq_true, if_true, hk]
    exact dictGet_erase_self es.pids app
  | false =>
    simp only [close_app, hget, hpid, ne_eq, not_false_eq_true, if_true, hk,
      Bool.false_eq_true, if_false, close_by_name_pids]
    exact dictGet_erase_self es.pids app

/-- Witness for C10: closing "dota" with a recorded pid 42 while the OS
has no such process and no process of the configured name fails, yet the
pid record is gone afterwards. -/
theorem C10_close_purges_pid_record_witness :
    (close_app ⟨[("dota", ⟨"Dota 2", "steam.exe", [], some "dota2.exe"⟩)]⟩
        ⟨[], [], id, fun _ => .otherError⟩ 100 ⟨[("dota", 42)], []⟩ "dota").1 = false ∧
    dictGet (close_app ⟨[("dota", ⟨"Dota 2", "steam.exe", [], some "dota2.exe"⟩)]⟩
        ⟨[], [], id, fun _ => .otherError⟩ 100 ⟨[("dota", 42)], []⟩ "dota").2.1.pids
      "dota" = none := by
  constructor
  · decide
  · exact C10_close_purges_pid_record _ _ _ _ _ 42 (by decide) (by decide)

/-! ### C3 -/

/-- C3: `close_app` is two-tier. If the recorded pid's forced
termination succeeds, tier 2 is never attempted: the result is success
with a session end recorded, the pid record purged, and only that pid
killed. With no pid record tier 2 runs directly; if the tier-1 kill
fails the record is purged and tier 2 runs on the unchanged OS. Whenever
either tier succeeds, a session-end event is recorded and the pid record
for the app is absent, regardless of which tier matched. -/
theorem C3_close_two_tier (cfg : Config) (os : OsState) (now : Int)
    (es : EngineState) (app : String)
    (h0 : dictGet es.pids app ≠ some 0) :
    (∀ pid, dictGet es.pids app = some pid → (kill_pid os pid).1 = true →
        close_app cfg os now es app =
          (true, ⟨dictErase es.pids app, record_session_end now es.stats app⟩,
            (kill_pid os pid).2)) ∧
    (dictGet es.pids app = none →
        close_app cfg os now es app = close_by_name cfg os now es app) ∧
    (∀ pid, dictGet es.pids app = some pid → (kill_pid os pid).1 = false →
        close_app cfg os now es app =
          close_by_name cfg os now ⟨dictErase es.pids app, es.stats⟩ app) ∧
    ((close_app cfg os now es app).1 = true →
        (close_app cfg os now es app).2.1.stats =
          record_session_end now es.stats app ∧
        dictGet (close_app cfg os now es app).2.1.pids app = none) := by
  refine ⟨?_, ?_, ?_, ?_⟩
  · intro pid hget hk
    have hpid : pid ≠ 0 := by
      intro h; rw [h] at hget; exact h0 hget
    simp only [close_app, hget, hpid, ne_eq, not_false_eq_true, if_true, hk]
  · intro hget
    simp only [close_app, hget]
  · intro pid hget hk
    have hpid : pid ≠ 0 := by
      intro h; rw [h] at hget; exact h0 hget
    simp only [close_app, hget, hpid, ne_eq, not_false_eq_true, if_true, hk,
      Bool.false_eq_true, if_false, kill_pid_false_os hk]
  · intro hsucc
    cases hget : dictGet es.pids app with
    | none =>
      simp only [close_app, hget] at hsucc ⊢
      refine ⟨close_by_name_stats_of_true _ _ _ _ _ hsucc, ?_⟩
      rw [close_by_name_pids, hget]
    | some pid =>
      have hpid : pid ≠ 0 := by
        intro h; rw [h] at hget; exact h0 hget
      cases hk : (kill_pid os pid).1 with
      | true =>
        simp only [close_app, hget, hpid, ne_eq, not_false_eq_true, if_true, hk]
        exact ⟨trivial, dictGet_erase_self es.pids app⟩
      | false =>
        simp only [close_app, hget, hpid, ne_eq, not_false_eq_true, if_true, hk,
          Bool.false_eq_true, if_false] at hsucc ⊢
        refine ⟨close_by_name_stats_of_true _ _ _ _ _ hsucc, ?_⟩
        rw [close_by_name_pids]
        exact dictGet_erase_self es.pids app

/-- Witness for C3: with a recorded live pid 5 for "dota", the tier-1
kill succeeds and `close_app` returns success with the session end
recorded, the record purged and only pid 5 removed from the OS. -/
theorem C3_close_two_tier_witness :
    dictGet [("dota", 5)] "dota" ≠ some 0 ∧
    close_app ⟨[("dota", ⟨"Dota 2", "steam.exe", [], some "dota2.exe"⟩)]⟩
        ⟨[⟨5, "dota2.exe"⟩], [], id, fun _ => .otherError⟩ 100
        ⟨[("dota", 5)], []⟩ "dota" =
      (true, ⟨dictErase [("dota", 5)] "dota", record_session_end 100 [] "dota"⟩,
        (kill_pid ⟨[⟨5, "dota2.exe"⟩], [], id, fun _ => .otherError⟩ 5).2) := by
  constructor
  · decide
  · exact (C3_close_two_tier _ _ _ _ _ (by decide)).1 5 (by decide) (by decide)

/-! ### C4 -/

theorem find?_map_update (f : StatsRow → StatsRow) {app : String}
    (hname : ∀ x, (f x).app_name = x.app_name) :
    ∀ {stats : List StatsRow} {r : StatsRow},
      stats.find? (fun r => r.app_name == app) = some r →
      (stats.map f).find? (fun r => r.app_name == app) = some (f r) := by
  intro stats
  induction stats with
  | nil => intro r h; cases h
  | cons x rest ih =>
    intro r h
    by_cases hx : x.app_name = app
    · rw [List.find?_cons_of_pos _ (by simp [hx])] at h
      injection h with h'
      subst h'
      rw [List.map_cons, List.find?_cons_of_pos _ (by simp [hname x, hx])]
    · rw [List.find?_cons_of_neg _ (by simp [hx])] at h
      rw [List.map_cons, List.find?_cons_of_neg _ (by simp [hname x, hx])]
      exact ih h

/-- C4: when a close succeeds with `openSessionStart` set (to a genuine,
nonzero session-start instant no later than `now`), exactly
`now - openSessionStart` is added to `totalActiveSeconds`, the session
start is cleared, and the other fields of the record are untouched — so
the total only increases, by exactly the session duration. When
`openSessionStart` is absent, the table is left entirely unchanged. -/
theorem C4_session_end_accounting (now : Int) (stats : List StatsRow)
    (app : String) (r : StatsRow)
    (hfind : stats.find? (fun r => r.app_name == app) = some r) :
    (∀ s, r.last_session_start = some s → s ≠ 0 → s ≤ now →
      ∃ r2, (record_session_end now stats app).find?
          (fun r => r.app_name == app) = some r2 ∧
        r2.total_time = r.total_time + (now - s) ∧
        r2.last_session_start = none ∧
        r2.launches = r.launches ∧
        r2.last_launch = r.last_launch ∧
        r2.app_name = r.app_name ∧
        r.total_time ≤ r2.total_time) ∧
    (r.last_session_start = none → record_session_end now stats app = stats) := by
  have happ : r.app_name = app := by
    have := List.find?_some hfind
    simpa using this
  constructor
  · intro s hs hs0 hle
    have hupd : record_session_end now stats app =
        stats.map (fun r2 =>
          if r2.app_name = app then
            { r2 with total_time := r2.total_time + (now - s),
                      last_session_start := none }
          else r2) := by
      simp only [record_session_end, hfind, hs, hs0, ne_eq, not_false_eq_true,
        if_true]
    have hfr := find?_map_update
      (fun r2 =>
        if r2.app_name = app then
          { r2 with total_time := r2.total_time + (now - s),
                    last_session_start := none }
        else r2)
      (fun x => by by_cases hx : x.app_name = app <;> simp [hx])
      hfind
    rw [hupd, hfr]
    refine ⟨_, rfl, ?_, ?_, ?_, ?_, ?_, ?_⟩
    · simp [happ]
    · simp [happ]
    · simp [happ]
    · simp [happ]
    · simp [happ]
    · simp only [happ, if_pos]
      omega
  · intro hnone
    simp only [record_session_end, hfind, hnone]

/-- Witness for C4: a row for "dota" with an open session started at 40
and total time 10, closed at time 100, ends with total time 70 and the
session start cleared. -/
theorem C4_session_end_accounting_witness :
    [(⟨"dota", 3, 10, some "t", some 40⟩ : StatsRow)].find?
        (fun r => r.app_name == "dota") = some ⟨"dota", 3, 10, some "t", some 40⟩ ∧
    ∃ r2, (record_session_end 100 [⟨"dota", 3, 10, some "t", some 40⟩] "dota").find?
        (fun r => r.app_name == "dota") = some r2 ∧
      r2.total_time = (10 : Int) + (100 - 40) ∧
      r2.last_session_start = none ∧
      r2.launches = 3 ∧
      r2.last_launch = some "t" ∧
      r2.app_name = "dota" ∧
      (10 : Int) ≤ r2.total_time := by
  constructor
  · decide
  · exact (C4_session_end_accounting 100 [⟨"dota", 3, 10, some "t", some 40⟩]
      "dota" ⟨"dota", 3, 10, some "t", some 40⟩ (by decide)).1 40
      (by decide) (by decide) (by decide)

/-! ### C5 -/

theorem launch_app_ok_eq (cfg : Config) (os : OsState) (clock : Clock)
    (es : EngineState) (app : String) (c : AppConfig) (cmd : List String)
    (pid : Nat) (hconf : dictGet cfg.apps app = some c)
    (hnotrun : (is_running cfg os es.pids app).1 = false)
    (hcmd : get_app_command cfg os app = some cmd)
    (hspawn : os.spawn cmd = SpawnResult.ok pid) :
    launch_app cfg os clock es app =
      (LaunchOutcome.ok,
        ⟨dictInsert (is_running cfg os es.pids app).2 app pid,
          record_launch clock es.stats app⟩) := by
  simp only [launch_app, hconf, hnotrun, Bool.false_eq_true, if_false, hcmd, hspawn]

/-- C5: after a successful launch (the app is configured, not already
running, has a resolvable launch command, and the spawn succeeds with a
live nonzero pid), `is_running` returns true on the new state, the app's
launch count increases by exactly 1 with `last_launch` and
`last_session_start` stamped to now, and a fresh record with count 1 is
created if none existed. -/
theorem C5_launch_success_effects (cfg : Config) (os : OsState) (clock : Clock)
    (es : EngineState) (app : String) (c : AppConfig) (cmd : List String)
    (pid : Nat) (hconf : dictGet cfg.apps app = some c)
    (hnotrun : (is_running cfg os es.pids app).1 = false)
    (hcmd : get_app_command cfg os app = some cmd)
    (hspawn : os.spawn cmd = SpawnResult.ok pid)
    (halive : pid_alive os pid = true) (hpid : pid ≠ 0) :
    (launch_app cfg os clock es app).1 = LaunchOutcome.ok ∧
    (is_running cfg os (launch_app cfg os clock es app).2.pids app).1 = true ∧
    (∀ r, es.stats.find? (fun r => r.app_name == app) = some r →
      (launch_app cfg os clock es app).2.stats.find?
          (fun r => r.app_name == app) =
        some { r with launches := r.launches + 1,
                      last_launch := some clock.iso,
                      last_session_start := some clock.epoch }) ∧
    (es.stats.find? (fun r => r.app_name == app) = none →
      (launch_app cfg os clock es app).2.stats.find?
          (fun r => r.app_name == app) =
        some ⟨app, 1, 0, some clock.iso, some clock.epoch⟩) := by
  have hlaunch := launch_app_ok_eq cfg os clock es app c cmd pid hconf hnotrun hcmd hspawn
  refine ⟨?_, ?_, ?_, ?_⟩
  · rw [hlaunch]
  · rw [hlaunch]
    simp [is_running, dictGet_insert_self, hpid, halive]
  · intro r hr
    have happ : r.app_name = app := by
      have := List.find?_some hr
      simpa using this
    rw [hlaunch]
    simp only [record_launch, hr]
    have hfr := find?_map_update
      (fun r2 =>
        if r2.app_name = app then
          { r2 with launches := r2.launches + 1,
                    last_launch := some clock.iso,
                    last_session_start := some clock.epoch }
        else r2)
      (fun x => by by_cases hx : x.app_name = app <;> simp [hx])
      hr
    rw [hfr]
    simp [happ]
  · intro hr
    rw [hlaunch]
    simp only [record_launch, hr]
    have hnone : es.stats.find? (fun r => r.app_name == app) = none := hr
    rw [find?_append_of_none hnone]
    simp [List.find?]

/-- Witness for C5: launching "x" from an empty state spawns pid 7; the
app is then seen running and its stats row is created with one launch. -/
theorem C5_launch_success_effects_witness :
    (is_running ⟨[("x", ⟨"X", "C:/x.exe", [], some "x.exe"⟩)]⟩ ⟨[⟨7, "xhelper.exe"⟩], ["C:/x.exe"], id, fun _ => .ok 7⟩ [] "x").1 = false ∧
    (launch_app ⟨[("x", ⟨"X", "C:/x.exe", [], some "x.exe"⟩)]⟩ ⟨[⟨7, "xhelper.exe"⟩], ["C:/x.exe"], id, fun _ => .ok 7⟩ ⟨"t1", 40⟩ ⟨[], []⟩ "x").1 = LaunchOutcome.ok ∧
    (is_running ⟨[("x", ⟨"X", "C:/x.exe", [], some "x.exe"⟩)]⟩ ⟨[⟨7, "xhelper.exe"⟩], ["C:/x.exe"], id, fun _ => .ok 7⟩ (launch_app ⟨[("x", ⟨"X", "C:/x.exe", [], some "x.exe"⟩)]⟩ ⟨[⟨7, "xhelper.exe"⟩], ["C:/x.exe"], id, fun _ => .ok 7⟩ ⟨"t1", 40⟩ ⟨[], []⟩ "x").2.pids "x").1 = true ∧
    (launch_app ⟨[("x", ⟨"X", "C:/x.exe", [], some "x.exe"⟩)]⟩ ⟨[⟨7, "xhelper.exe"⟩], ["C:/x.exe"], id, fun _ => .ok 7⟩ ⟨"t1", 40⟩ ⟨[], []⟩ "x").2.stats.find? (fun r => r.app_name == "x") = some ⟨"x", 1, 0, some "t1", some 40⟩ := by
  have h := C5_launch_success_effects
    ⟨[("x", ⟨"X", "C:/x.exe", [], some "x.exe"⟩)]⟩
    ⟨[⟨7, "xhelper.exe"⟩], ["C:/x.exe"], id, fun _ => .ok 7⟩ ⟨"t1", 40⟩ ⟨[], []⟩ "x"
    ⟨"X", "C:/x.exe", [], some "x.exe"⟩ ["C:/x.exe"] 7
    (by decide) (by decide) (by decide) (by decide) (by decide) (by decide)
  exact ⟨by decide, h.1, h.2.1, h.2.2.2 (by decide)⟩

/-! ### C6 -/

/-- C6: launching the same app twice in a row (no close in between, the
spawned process still alive) makes the second call exit through the
AlreadyRunning branch and leave the engine state — in particular the
usage stats and launch count — entirely unchanged. -/
theorem C6_launch_idempotent (cfg : Config) (os : OsState)
    (clock clock2 : Clock) (es : EngineState) (app : String) (c : AppConfig)
    (cmd : List String) (pid : Nat) (hconf : dictGet cfg.apps app = some c)
    (hnotrun : (is_running cfg os es.pids app).1 = false)
    (hcmd : get_app_command cfg os app = some cmd)
    (hspawn : os.spawn cmd = SpawnResult.ok pid)
    (halive : pid_alive os pid = true) (hpid : pid ≠ 0) :
    (launch_app cfg os clock2 (launch_app cfg os clock es app).2 app).1 =
      LaunchOutcome.alreadyRunning ∧
    (launch_app cfg os clock2 (launch_app cfg os clock es app).2 app).2 =
      (launch_app cfg os clock es app).2 := by
  have hlaunch := launch_app_ok_eq cfg os clock es app c cmd pid hconf hnotrun hcmd hspawn
  have hrun2 : is_running cfg os
      (dictInsert (is_running cfg os es.pids app).2 app pid) app =
      (true, dictInsert (is_running cfg os es.pids app).2 app pid) := by
    simp [is_running, dictGet_insert_self, hpid, halive]
  rw [hlaunch]
  constructor
  · simp only [launch_app, hconf, hrun2, if_true]
  · simp only [launch_app, hconf, hrun2, if_true]

/-- Witness for C6: after the successful launch of "x", a second launch
returns through the AlreadyRunning branch with the state unchanged. -/
theorem C6_launch_idempotent_witness :
    (launch_app ⟨[("x", ⟨"X", "C:/x.exe", [], some "x.exe"⟩)]⟩ ⟨[⟨7, "xhelper.exe"⟩], ["C:/x.exe"], id, fun _ => .ok 7⟩ ⟨"t2", 90⟩ (launch_app ⟨[("x", ⟨"X", "C:/x.exe", [], some "x.exe"⟩)]⟩ ⟨[⟨7, "xhelper.exe"⟩], ["C:/x.exe"], id, fun _ => .ok 7⟩ ⟨"t1", 40⟩ ⟨[], []⟩ "x").2 "x").1 = LaunchOutcome.alreadyRunning ∧
    (launch_app ⟨[("x", ⟨"X", "C:/x.exe", [], some "x.exe"⟩)]⟩ ⟨[⟨7, "xhelper.exe"⟩], ["C:/x.exe"], id, fun _ => .ok 7⟩ ⟨"t2", 90⟩ (launch_app ⟨[("x", ⟨"X", "C:/x.exe", [], some "x.exe"⟩)]⟩ ⟨[⟨7, "xhelper.exe"⟩], ["C:/x.exe"], id, fun _ => .ok 7⟩ ⟨"t1", 40⟩ ⟨[], []⟩ "x").2 "x").2 = (launch_app ⟨[("x", ⟨"X", "C:/x.exe", [], some "x.exe"⟩)]⟩ ⟨[⟨7, "xhelper.exe"⟩], ["C:/x.exe"], id, fun _ => .ok 7⟩ ⟨"t1", 40⟩ ⟨[], []⟩ "x").2 :=
  C6_launch_idempotent
    ⟨[("x", ⟨"X", "C:/x.exe", [], some "x.exe"⟩)]⟩
    ⟨[⟨7, "xhelper.exe"⟩], ["C:/x.exe"], id, fun _ => .ok 7⟩ ⟨"t1", 40⟩ ⟨"t2", 90⟩
    ⟨[], []⟩ "x" ⟨"X", "C:/x.exe", [], some "x.exe"⟩ ["C:/x.exe"] 7
    (by decide) (by decide) (by decide) (by decide) (by decide) (by decide)

/-! ### C2 -/

/-- C2 counterexample: the value `launch_app` returns to its caller does
not let the caller tell the failure kinds apart. On an unconfigured app
the outcome is NotConfigured, on an already-running app it is
AlreadyRunning, yet the returned value (the source returns only this
boolean) is `False` in both cases — identical, hence not
caller-distinguishable. -/
theorem C2_counterexample :
    (launch_app ⟨[]⟩ ⟨[], [], id, fun _ => .otherError⟩ ⟨"t", 1⟩ ⟨[], []⟩ "dota").1 = LaunchOutcome.notConfigured ∧
    (launch_app ⟨[("dota", ⟨"Dota 2", "", [], some "dota2.exe"⟩)]⟩ ⟨[⟨5, "dota2.exe"⟩], [], id, fun _ => .otherError⟩ ⟨"t", 1⟩ ⟨[("dota", 5)], []⟩ "dota").1 = LaunchOutcome.alreadyRunning ∧
    launch_result (launch_app ⟨[]⟩ ⟨[], [], id, fun _ => .otherError⟩ ⟨"t", 1⟩ ⟨[], []⟩ "dota").1 =
      launch_result (launch_app ⟨[("dota", ⟨"Dota 2", "", [], some "dota2.exe"⟩)]⟩ ⟨[⟨5, "dota2.exe"⟩], [], id, fun _ => .otherError⟩ ⟨"t", 1⟩ ⟨[("dota", 5)], []⟩ "dota").1 := by
  decide

/-- C2 (amended): `launch_app` classifies its outcomes internally — the
exit branches NotConfigured, AlreadyRunning, no launch command, and the
spawn failures split into missing executable / permission denied / other
are distinct, and no usage-stats state is committed on any failure — but
the value returned to the caller is a single boolean that is true
exactly on success, so the failure kinds are not distinguishable from
the returned value. -/
theorem C2_launch_outcomes_amended (cfg : Config) (os : OsState)
    (clock : Clock) (es : EngineState) (app : String) :
    (launch_result (launch_app cfg os clock es app).1 = true ↔
      (launch_app cfg os clock es app).1 = LaunchOutcome.ok) ∧
    ((launch_app cfg os clock es app).1 ≠ LaunchOutcome.ok →
      (launch_app cfg os clock es app).2.stats = es.stats) ∧
    (∀ cmd, (is_running cfg os es.pids app).1 = false →
      get_app_command cfg os app = some cmd →
      ((os.spawn cmd = SpawnResult.fileNotFound →
          (launch_app cfg os clock es app).1 = LaunchOutcome.spawnFailedMissing) ∧
       (os.spawn cmd = SpawnResult.permissionError →
          (launch_app cfg os clock es app).1 = LaunchOutcome.spawnFailedPermission) ∧
       (os.spawn cmd = SpawnResult.otherError →
          (launch_app cfg os clock es app).1 = LaunchOutcome.spawnFailedOther))) := by
  refine ⟨?_, ?_, ?_⟩
  · cases ho : (launch_app cfg os clock es app).1 <;> simp [launch_result, ho]
  · intro hne
    cases hc : dictGet cfg.apps app with
    | none => simp [launch_app, hc]
    | some c =>
      cases hrun : (is_running cfg os es.pids app).1 with
      | true => simp [launch_app, hc, hrun]
      | false =>
        cases hcmd : get_app_command cfg os app with
        | none => simp [launch_app, hc, hrun, hcmd]
        | some cmd =>
          cases hsp : os.spawn cmd with
          | ok pid =>
            exfalso
            apply hne
            simp [launch_app, hc, hrun, hcmd, hsp]
          | fileNotFound => simp [launch_app, hc, hrun, hcmd, hsp]
          | permissionError => simp [launch_app, hc, hrun, hcmd, hsp]
          | otherError => simp [launch_app, hc, hrun, hcmd, hsp]
  · intro cmd hrun hcmd
    cases hc : dictGet cfg.apps app with
    | none => simp [get_app_command, hc] at hcmd
    | some c =>
      refine ⟨?_, ?_, ?_⟩ <;> intro hsp <;> simp [launch_app, hc, hrun, hcmd, hsp]

/-- Witness for C2 (amended): at a concrete state where the executable
is missing, the internal outcome is the missing-executable spawn
failure, while the returned boolean is just `False`. -/
theorem C2_launch_outcomes_amended_witness :
    (is_running ⟨[("x", ⟨"X", "C:/x.exe", [], some "x.exe"⟩)]⟩ ⟨[], ["C:/x.exe"], id, fun _ => .fileNotFound⟩ [] "x").1 = false ∧
    (launch_app ⟨[("x", ⟨"X", "C:/x.exe", [], some "x.exe"⟩)]⟩ ⟨[], ["C:/x.exe"], id, fun _ => .fileNotFound⟩ ⟨"t", 1⟩ ⟨[], []⟩ "x").1 = LaunchOutcome.spawnFailedMissing := by
  constructor
  · decide
  · exact ((C2_launch_outcomes_amended
      ⟨[("x", ⟨"X", "C:/x.exe", [], some "x.exe"⟩)]⟩
      ⟨[], ["C:/x.exe"], id, fun _ => .fileNotFound⟩ ⟨"t", 1⟩ ⟨[], []⟩
      "x").2.2 ["C:/x.exe"] (by decide) (by decide)).1 (by decide)

/-! ### C8 -/

/-- C8: for a non-operator caller whose previous command was accepted at
`t1`, a command at `t2` less than the cooldown window later is rejected
with the last-command map untouched (and the wrapped handler — the
engine — not invoked); at `t2` at least the window later it is accepted.
The designated operator is accepted regardless of interval and map
state. Only accepted commands update the caller's timestamp. -/
theorem C8_rate_limit_spec (admin uid : Nat) (t1 t2 : Int)
    (lct : List (Nat × Int)) (huid : uid ≠ admin)
    (hacc : (rate_limit_check admin RATE_LIMIT_SECONDS t1 uid lct).1 = true) :
    ((t2 - t1 < RATE_LIMIT_SECONDS →
      rate_limit_check admin RATE_LIMIT_SECONDS t2 uid
          (rate_limit_check admin RATE_LIMIT_SECONDS t1 uid lct).2 =
        (false, (rate_limit_check admin RATE_LIMIT_SECONDS t1 uid lct).2)) ∧
     (RATE_LIMIT_SECONDS ≤ t2 - t1 →
      (rate_limit_check admin RATE_LIMIT_SECONDS t2 uid
          (rate_limit_check admin RATE_LIMIT_SECONDS t1 uid lct).2).1 = true)) ∧
    (∀ (now : Int) (m : List (Nat × Int)),
      (rate_limit_check admin RATE_LIMIT_SECONDS now admin m).1 = true) := by
  have hm1 : (rate_limit_check admin RATE_LIMIT_SECONDS t1 uid lct).2 =
      dictInsert lct uid t1 := by
    unfold rate_limit_check at hacc ⊢
    cases hg : dictGet lct uid with
    | none => simp [huid, hg]
    | some t =>
      by_cases hlt : t1 - t < RATE_LIMIT_SECONDS
      · simp [huid, hg, hlt] at hacc
      · simp [huid, hg, hlt]
  refine ⟨⟨?_, ?_⟩, ?_⟩
  · intro h2
    rw [hm1]
    simp [rate_limit_check, huid, dictGet_insert_self, h2]
  · intro h2
    rw [hm1]
    simp [rate_limit_check, huid, dictGet_insert_self, not_lt.mpr h2]
  · intro now m
    simp [rate_limit_check]

/-- Witness for C8: caller 2 (admin is 1) is accepted at time 10 from an
empty map, then rejected at time 11 with the map unchanged. -/
theorem C8_rate_limit_spec_witness :
    (rate_limit_check 1 RATE_LIMIT_SECONDS 10 2 []).1 = true ∧
    rate_limit_check 1 RATE_LIMIT_SECONDS 11 2
        (rate_limit_check 1 RATE_LIMIT_SECONDS 10 2 []).2 =
      (false, (rate_limit_check 1 RATE_LIMIT_SECONDS 10 2 []).2) := by
  constructor
  · decide
  · exact ((C8_rate_limit_spec 1 2 10 11 [] (by decide) (by decide)).1).1 (by decide)

/-! ### C9 -/

/-- C9: at startup, a stats table missing any required column is dropped
and recreated so that afterwards the table has exactly the required
columns and no rows; a table containing every required column is left
untouched. (The source wraps the whole check in a broad `try/except`, so
no exception escapes; the model is a total function.) -/
theorem C9_schema_self_heal (t : DbTable) :
    ((∃ c ∈ required_columns, c ∉ t.columns) →
      init_stats_db (some t) = ⟨required_columns, []⟩) ∧
    ((∀ c ∈ required_columns, c ∈ t.columns) → init_stats_db (some t) = t) := by
  constructor
  · rintro ⟨c, hc, hnot⟩
    have hne : (required_columns.filter
        (fun c => !(t.columns.contains c))).isEmpty = false := by
      rw [List.isEmpty_eq_false]
      intro hnil
      rw [List.filter_eq_nil_iff] at hnil
      have := hnil c hc
      simp at this
      exact hnot this
    simp only [init_stats_db]
    rw [if_neg (by rw [hne]; exact Bool.false_ne_true)]
  · intro hall
    have hnil : required_columns.filter (fun c => !(t.columns.contains c)) = [] := by
      rw [List.filter_eq_nil_iff]
      intro a ha
      simp [hall a ha]
    simp only [init_stats_db]
    rw [if_pos (by rw [hnil]; rfl)]

/-- Witness for C9: a legacy table missing `total_time` (with a leftover
row) is recreated empty with exactly the required columns. -/
theorem C9_schema_self_heal_witness :
    (∃ c ∈ required_columns,
      c ∉ (⟨["app_name", "launches"], [["dota"]]⟩ : DbTable).columns) ∧
    init_stats_db (some ⟨["app_name", "launches"], [["dota"]]⟩) =
      ⟨required_columns, []⟩ := by
  constructor
  · decide
  · exact (C9_schema_self_heal ⟨["app_name", "launches"], [["dota"]]⟩).1 (by decide)

/-! ### C7 -/

/-- The configured process name of an app, lowered — the key the engine
matches OS image names against. -/
def pnOf (cfg : Config) (a : String) : String :=
  pyLower ((get_process_name cfg a).getD "")

theorem any_filter_ne_pid {l : List Proc} {p : Proc} (hp : p ∈ l)
    (hnd : (l.map Proc.pid).Nodup) {f : Proc → Bool} (hfp : f p = false) :
    (l.filter (fun q => decide (q.pid ≠ p.pid))).any f = l.any f := by
  cases h : l.any f with
  | false =>
    rw [List.any_eq_false] at h
    rw [List.any_eq_false]
    intro x hx
    exact h x (List.mem_of_mem_filter hx)
  | true =>
    obtain ⟨x, hx, hfx⟩ := List.any_eq_true.mp h
    have hxp : x.pid ≠ p.pid := by
      intro he
      have hxep : x = p := List.inj_on_of_nodup_map hnd hx hp he
      rw [hxep, hfp] at hfx
      cases hfx
    exact List.any_eq_true.mpr ⟨x, List.mem_filter.mpr ⟨hx, by simp [hxp]⟩, hfx⟩

theorem is_running_nil_not_found {cfg : Config} {os : OsState} {a n : String}
    (hn : get_process_name cfg a = some n) (hne : n ≠ "")
    (hf : os.procs.find? (fun p => pyLower p.name == pyLower n) = none) :
    is_running cfg os [] a = (false, []) := by
  simp [is_running, dictGet, find_by_name, hn, hne, hf]

theorem is_running_nil_found {cfg : Config} {os : OsState} {a n : String}
    {p : Proc} (hn : get_process_name cfg a = some n) (hne : n ≠ "")
    (hf : os.procs.find? (fun p => pyLower p.name == pyLower n) = some p) :
    is_running cfg os [] a = (true, [(a, p.pid)]) := by
  simp [is_running, dictGet, find_by_name, hn, hne, hf, dictInsert]

theorem close_app_single (cfg : Config) (os : OsState) (now : Int)
    (stats : List StatsRow) (a : String) (pid : Nat) (hpid : pid ≠ 0)
    (hk : os.procs.any (fun q => q.pid == pid) = true) :
    close_app cfg os now ⟨[(a, pid)], stats⟩ a =
      (true, ⟨[], record_session_end now stats a⟩,
        { os with procs := os.procs.filter (fun q => decide (q.pid ≠ pid)) }) := by
  have hget : dictGet [(a, pid)] a = some pid := by simp [dictGet, List.find?]
  have herase : dictErase [(a, pid)] a = [] := by simp [dictErase]
  simp [close_app, hget, hpid, kill_pid, hk, herase]

theorem close_all_go_filter (cfg : Config) (now : Int) :
    ∀ (l : List String) (os : OsState) (stats : List StatsRow),
      (∀ a ∈ l, ∃ n, get_process_name cfg a = some n ∧ n ≠ "") →
      (l.map (pnOf cfg)).Nodup →
      (os.procs.map Proc.pid).Nodup →
      (∀ p ∈ os.procs, p.pid ≠ 0) →
      (close_all_go cfg now l os ⟨[], stats⟩).1 =
        l.filter (fun a => os.procs.any (fun p => pyLower p.name == pnOf cfg a)) := by
  intro l
  induction l with
  | nil => intro os stats _ _ _ _; rfl
  | cons a rest ih =>
    intro os stats h1 h2 h3 h4
    obtain ⟨n, hn, hne⟩ := h1 a (List.mem_cons_self a rest)
    have hpn : pnOf cfg a = pyLower n := by simp [pnOf, hn]
    have h1' : ∀ b ∈ rest, ∃ n, get_process_name cfg b = some n ∧ n ≠ "" :=
      fun b hb => h1 b (List.mem_cons_of_mem a hb)
    have h2' : (rest.map (pnOf cfg)).Nodup := by
      rw [List.map_cons, List.nodup_cons] at h2
      exact h2.2
    have hnotmem : pnOf cfg a ∉ rest.map (pnOf cfg) := by
      rw [List.map_cons, List.nodup_cons] at h2
      exact h2.1
    cases hf : os.procs.find? (fun p => pyLower p.name == pyLower n) with
    | none =>
      have hrun := is_running_nil_not_found hn hne hf
      have hany : os.procs.any (fun p => pyLower p.name == pnOf cfg a) = false := by
        rw [hpn, List.any_eq_false]
        intro x hx
        have := List.find?_eq_none.mp hf x hx
        simpa using this
      simp only [close_all_go, hrun, Bool.false_eq_true, if_false]
      rw [ih os stats h1' h2' h3 h4]
      rw [List.filter_cons_of_neg (by simp [hany])]
    | some p =>
      have hpmem : p ∈ os.procs := List.mem_of_find?_eq_some hf
      have hppred := List.find?_some hf
      have hpname : pyLower p.name = pyLower n := by simpa using hppred
      have hppid : p.pid ≠ 0 := h4 p hpmem
      have hrun := is_running_nil_found hn hne hf
      have hkill : os.procs.any (fun q => q.pid == p.pid) = true :=
        List.any_eq_true.mpr ⟨p, hpmem, by simp⟩
      have hclose := close_app_single cfg os now stats a p.pid hppid hkill
      have h3' : (((os.procs.filter
          (fun q => decide (q.pid ≠ p.pid))).map Proc.pid)).Nodup :=
        ((List.filter_sublist _).map Proc.pid).nodup h3
      have h4' : ∀ q ∈ os.procs.filter (fun q => decide (q.pid ≠ p.pid)),
          q.pid ≠ 0 := fun q hq => h4 q (List.mem_of_mem_filter hq)
      simp only [close_all_go, hrun, hclose, if_true]
      rw [ih _ (record_session_end now stats a) h1' h2' h3' h4']
      have hpreda : os.procs.any (fun q => pyLower q.name == pnOf cfg a) = true := by
        rw [hpn]
        exact List.any_eq_true.mpr ⟨p, hpmem, by rw [hpname]; simp⟩
      rw [List.filter_cons_of_pos (by simp [hpreda])]
      congr 1
      apply List.filter_congr
      intro b hb
      apply any_filter_ne_pid hpmem h3
      have hab : pnOf cfg a ≠ pnOf cfg b := by
        intro he
        exact hnotmem (he ▸ List.mem_map_of_mem (pnOf cfg) hb)
      rw [show pyLower p.name = pnOf cfg a from hpn ▸ hpname]
      simp [hab]

/-- C7: `close_all_apps` walks the full catalog in catalog order, asking
`isRunning` then `close` per app, and (starting from an empty pid ledger,
with every catalog app configured with a distinct non-empty process name,
and OS pids distinct and nonzero) returns exactly the identifiers of the
apps that had a live process of their configured name, in catalog order;
it is a total function, so no failure on one app aborts the rest. -/
theorem C7_close_all_catalog (cfg : Config) (os : OsState) (now : Int)
    (stats : List StatsRow)
    (h1 : ∀ a ∈ cfg.apps.map Prod.fst,
      (get_process_name cfg a).isSome = true ∧ (get_process_name cfg a).getD "" ≠ "")
    (h2 : ((cfg.apps.map Prod.fst).map (pnOf cfg)).Nodup)
    (h3 : (os.procs.map Proc.pid).Nodup)
    (h4 : ∀ p ∈ os.procs, p.pid ≠ 0) :
    (close_all_apps cfg os now ⟨[], stats⟩).1 =
      (cfg.apps.map Prod.fst).filter
        (fun a => os.procs.any (fun p => pyLower p.name == pnOf cfg a)) := by
  apply close_all_go_filter
  · intro a ha
    obtain ⟨hs, hg⟩ := h1 a ha
    obtain ⟨n, hn⟩ := Option.isSome_iff_exists.mp hs
    refine ⟨n, hn, ?_⟩
    rw [hn] at hg
    simpa using hg
  · exact h2
  · exact h3
  · exact h4

/-- Witness for C7: a catalog of three apps (dota, spotify, discord)
with only spotify and discord running — `close_all_apps` returns exactly
those two identifiers, in catalog order. -/
theorem C7_close_all_catalog_witness :
    (close_all_apps ⟨[("dota", ⟨"Dota 2", "", [], some "dota2.exe"⟩), ("spotify", ⟨"Spotify", "", [], some "Spotify.exe"⟩), ("discord", ⟨"Discord", "", [], some "Discord.exe"⟩)]⟩ ⟨[⟨3, "spotify.exe"⟩, ⟨9, "discord.exe"⟩], [], id, fun _ => .otherError⟩ 50 ⟨[], []⟩).1 = ["spotify", "discord"] := by
  have h := C7_close_all_catalog
    ⟨[("dota", ⟨"Dota 2", "", [], some "dota2.exe"⟩), ("spotify", ⟨"Spotify", "", [], some "Spotify.exe"⟩), ("discord", ⟨"Discord", "", [], some "Discord.exe"⟩)]⟩
    ⟨[⟨3, "spotify.exe"⟩, ⟨9, "discord.exe"⟩], [], id, fun _ => .otherError⟩ 50 []
    (by decide) (by decide) (by decide) (by decide)
  rw [h]
  decide

end Ashley
